import Mathlib

/-!
Verification of the Patient BMI web front-end core logic.

The definitions below are shallow embeddings of the TypeScript source:
machine floating point is modelled by exact rationals (`ℚ`) with the
`toFixed(1)` rounding made explicit, ISO calendar dates by a record of
numeric components, backend payloads by an inductive JSON value, and the
asynchronous fan-out/fan-in by an explicit completion schedule.
Each definition's comment names the source function it embeds.
-/

/-- ISO calendar date (date-only, no time-of-day), as produced by the
`YYYY-MM-DD` strings the forms exchange with the backend. -/
structure CalDate where
  y : Nat
  m : Nat
  d : Nat
deriving DecidableEq, Repr

/-- Date-only "strictly before" comparison, the effect of the source's
`inputDate.setHours(0,0,0,0); today.setHours(0,0,0,0); inputDate > today`
comparison in `isFutureDate` (part_004 lines 114-122). -/
def beforeDate (a b : CalDate) : Bool :=
  a.y < b.y || (a.y == b.y && (a.m < b.m || (a.m == b.m && a.d < b.d)))

/-- Numeric value of a digit list (most significant first). -/
def digitsVal (cs : List Char) : Nat :=
  cs.foldl (fun n c => 10 * n + (c.toNat - 48)) 0

/-- Parse a strict `YYYY-MM-DD` string into a `CalDate`; `none` models an
invalid `Date` in the source. -/
def parseISODate (s : String) : Option CalDate :=
  match s.data with
  | [y1, y2, y3, y4, '-', m1, m2, '-', d1, d2] =>
    if [y1, y2, y3, y4, m1, m2, d1, d2].all Char.isDigit then
      some ⟨digitsVal [y1, y2, y3, y4], digitsVal [m1, m2], digitsVal [d1, d2]⟩
    else none
  | _ => none

/-- Order-preserving numeric key of an optional date string: the embedding of
`getDateValue` (PatientListing, second listing implementation), which maps a
parseable date to its timestamp and anything else to `0`.  Months and days
parse from two digits, so `y*10000 + m*100 + d` is ordered exactly as the
timestamps are. -/
def getDateValue (s : Option String) : Nat :=
  match s with
  | none => 0
  | some str =>
    match parseISODate str with
    | some dt => dt.y * 10000 + dt.m * 100 + dt.d
    | none => 0

/-- Embeds `isFutureDate` (part_004 lines 114-122): the candidate date string is
strictly after today's calendar date; an unparseable date is not future. -/
def isFutureDate (today : CalDate) (dateString : String) : Bool :=
  match parseISODate dateString with
  | some inputDate => beforeDate today inputDate
  | none => false

/-- Longest leading run of decimal digits of a character list. -/
def takeDigits : List Char → List Char × List Char
  | [] => ([], [])
  | c :: cs =>
    if c.isDigit then
      let (d, r) := takeDigits cs
      (c :: d, r)
    else ([], c :: cs)

/-- JavaScript `parseFloat` restricted to plain decimal literals: optional
sign, integer part, optional fractional part, trailing garbage ignored;
`none` models `NaN`. -/
def jsParseFloat (s : String) : Option ℚ :=
  let cs := s.data.dropWhile (fun c => c = ' ')
  let (neg, cs1) :=
    match cs with
    | '-' :: t => (true, t)
    | '+' :: t => (false, t)
    | _ => (false, cs)
  let (ip, rest) := takeDigits cs1
  let fp :=
    match rest with
    | '.' :: t => (takeDigits t).1
    | _ => []
  if ip.isEmpty ∧ fp.isEmpty then none
  else
    let v : ℚ := (digitsVal ip : ℚ) + (digitsVal fp : ℚ) / ((10 : ℚ) ^ fp.length)
    some (if neg then -v else v)

/-- Round-half-away-from-zero to an integer: the rounding rule of
`Number.prototype.toFixed` on the already-scaled value. -/
def roundHalfAway (x : ℚ) : ℤ :=
  if 0 ≤ x then ⌊x + 1/2⌋ else ⌈x - 1/2⌉

/-- Embeds `calculateBMI` (VitalsForm.tsx lines 132-135 and part_004 lines 450-454):
`heightM = heightCm / 100; bmiValue = weightKg / (heightM * heightM);
parseFloat(bmiValue.toFixed(1))`. -/
def calculateBMI (heightCm weightKg : ℚ) : ℚ :=
  let heightM := heightCm / 100
  let bmiValue := weightKg / (heightM * heightM)
  (roundHalfAway (10 * bmiValue) : ℚ) / 10

/-- The status branch of `calculateBMI` (VitalsForm.tsx lines 137-145). -/
def vitalsFormStatus (roundedBMI : ℚ) : String :=
  if roundedBMI < 18.5 then "Underweight"
  else if roundedBMI < 25 then "Normal"
  else "Overweight"

/-- Embeds `getBmiStatus` (PatientListing.tsx lines 89-93, first listing
implementation). -/
def getBmiStatus (bmi : ℚ) : String :=
  if bmi < 18.5 then "Underweight"
  else if bmi < 25 then "Normal"
  else "Overweight"

/-- Embeds `getBmiStatusText` (GeneralAssessmentForm.tsx lines 464-468). -/
def getBmiStatusText (bmiValue : ℚ) : String :=
  if bmiValue < 18.5 then "Underweight"
  else if bmiValue < 25 then "Normal"
  else "Overweight"

/-- Embeds `getBmiStatus` of the patient-details view (part_002 lines 1040-1044). -/
def detailsGetBmiStatus (bmi : ℚ) : String :=
  if bmi < 18.5 then "Underweight"
  else if bmi < 25 then "Normal"
  else "Overweight"

/-- Embeds `getBmiStatus` (part_004 lines 611-618) on an already-numeric BMI. -/
def part004GetBmiStatus (num : ℚ) : String :=
  if num < 18.5 then "Underweight"
  else if num < 25 then "Normal"
  else "Overweight"

/-- Embeds `getBmiStatus` of the second listing implementation (PatientListing.tsx
lines 1186-1192): `if (!bmi || isNaN(bmi)) return 'No Data'` guards a missing
or zero BMI before the thresholds. -/
def listingGetBmiStatusOpt (bmi : Option ℚ) : String :=
  match bmi with
  | none => "No Data"
  | some b =>
    if b = 0 then "No Data"
    else if b < 18.5 then "Underweight"
    else if b < 25 then "Normal"
    else "Overweight"

/-- The ad hoc status label of part_004 line 519:
`calculatedBMI <= 25 ? 'Normal/Underweight' : 'Overweight'`. -/
def routeBmiStatus (calculatedBMI : ℚ) : String :=
  if calculatedBMI ≤ 25 then "Normal/Underweight" else "Overweight"

/-- The two assessment screens a vitals submission can route to. -/
inductive Route
  | general
  | overweight
deriving DecidableEq, Repr

/-- Embeds `nextRoute` (VitalsForm.tsx line 254):
`calculatedBMI <= 25 ? '/general-assessment' : '/overweight-assessment'`. -/
def nextRoute (calculatedBMI : ℚ) : Route :=
  if calculatedBMI ≤ 25 then Route.general else Route.overweight

/-- Whether an assessment form renders its content or its access-denied
screen for a BMI it was navigated to with. -/
inductive FormAccess
  | granted
  | denied
deriving DecidableEq, Repr

/-- Access control of the general assessment form (GeneralAssessmentForm.tsx
lines 614-637): `calculatedStatus = getBmiStatusText(bmi);
if (calculatedStatus === 'Overweight') return <Access Denied>`. -/
def generalFormAccess (bmi : ℚ) : FormAccess :=
  if getBmiStatusText bmi = "Overweight" then FormAccess.denied else FormAccess.granted

/-- Access control of the overweight assessment form (part_002 lines 192-214
and 606-628): `if (bmi <= 25) return <Access Denied>`. -/
def overweightFormAccess (bmi : ℚ) : FormAccess :=
  if bmi ≤ 25 then FormAccess.denied else FormAccess.granted

/-- JSON value, the shape of a backend response payload. -/
inductive Json
  | null
  | bool (b : Bool)
  | num (q : ℚ)
  | str (s : String)
  | arr (elems : List Json)
  | obj (fields : List (String × Json))

/-- Property access `payload.k` followed by `Array.isArray`: the first
binding of key `k` when its value is a list. -/
def lookupArr (fields : List (String × Json)) (k : String) : Option (List Json) :=
  match fields.find? (fun p => p.1 = k) with
  | some (_, Json.arr l) => some l
  | _ => none

/-- Depth-1 scan of `extractArrayFromResponse` (part_004 lines 82-87): the
first list-valued entry among the object's values. -/
def firstArrayValue : List (String × Json) → Option (List Json)
  | [] => none
  | (_, Json.arr l) :: _ => some l
  | _ :: rest => firstArrayValue rest

/-- First list among the elements of a list (`Object.values` of a JS array is
its element list). -/
def firstArrayElem : List Json → Option (List Json)
  | [] => none
  | Json.arr l :: _ => some l
  | _ :: rest => firstArrayElem rest

/-- Depth-2 scan of `extractArrayFromResponse` (part_004 lines 89-99): for
each object-typed value, the first list among its own values. -/
def firstNestedArrayValue : List (String × Json) → Option (List Json)
  | [] => none
  | (_, Json.obj fs) :: rest =>
    match firstArrayValue fs with
    | some l => some l
    | none => firstNestedArrayValue rest
  | (_, Json.arr l) :: rest =>
    match firstArrayElem l with
    | some l2 => some l2
    | none => firstNestedArrayValue rest
  | _ :: rest => firstNestedArrayValue rest

/-- Embeds `extractArrayFromResponse` (part_004 lines 61-104): the Response
Normalizer.  Tried in order with first match winning: the payload itself when
it is a list; `payload.results` when a list; `payload.data` when a list; the
first list-valued entry at depth 1; the first list-valued entry at depth 2;
otherwise the empty list. -/
def extractArrayFromResponse (data : Json) : List Json :=
  match data with
  | Json.arr l => l
  | Json.obj fs =>
    match lookupArr fs "results" with
    | some l => l
    | none =>
      match lookupArr fs "data" with
      | some l => l
      | none =>
        match firstArrayValue fs with
        | some l => l
        | none =>
          match firstNestedArrayValue fs with
          | some l => l
          | none => []
  | _ => []

/-- The three-step inline variant of the normalizer (PatientListing.tsx lines
70-75): raw list, `results`, `data`, else empty. -/
def extractArrayBasic (data : Json) : List Json :=
  match data with
  | Json.arr l => l
  | Json.obj fs =>
    match lookupArr fs "results" with
    | some l => l
    | none =>
      match lookupArr fs "data" with
      | some l => l
      | none => []
  | _ => []

/-- Embeds `String.prototype.trim` on the space-separated date strings the forms
use (structural form, so that concrete instances evaluate). -/
def jsTrim (s : String) : String :=
  String.mk (((s.data.dropWhile (fun c => c = ' ')).reverse.dropWhile (fun c => c = ' ')).reverse)

/-- Outcome of a form submission handler: a synchronous validation error, or
the payload handed to the create API call. -/
inductive SubmitOutcome (α : Type)
  | error (msg : String)
  | write (payload : α)
deriving DecidableEq, Repr

/-- The body sent to `vitalsApi.createVitals`. -/
structure VitalsPayload where
  patient_id : String
  visit_date : String
  height_cm : ℚ
  weight_kg : ℚ
  bmi : ℚ
deriving DecidableEq, Repr

/-- The raw text fields of the vitals form. -/
structure VitalsFormData where
  visit_date : String
  height_cm : String
  weight_kg : String
deriving DecidableEq, Repr

/-- Embeds `handleSubmit` of VitalsForm.tsx (lines 197-250): the validation sequence
before `vitalsApi.createVitals` is called.  `patientId = none` models a
missing patient, `some ""` a patient without an id. -/
def vitalsHandleSubmit (patientId : Option String) (existingDates : List String)
    (formData : VitalsFormData) : SubmitOutcome VitalsPayload :=
  match patientId with
  | none => SubmitOutcome.error "No patient data found. Please register the patient first."
  | some pid =>
    if pid = "" then
      SubmitOutcome.error "Invalid patient data. Patient ID is missing."
    else if formData.visit_date = "" ∨ formData.height_cm = "" ∨ formData.weight_kg = "" then
      SubmitOutcome.error "All fields are mandatory."
    else
      match jsParseFloat formData.height_cm, jsParseFloat formData.weight_kg with
      | some heightNum, some weightNum =>
        if heightNum ≤ 0 ∨ weightNum ≤ 0 then
          SubmitOutcome.error "Height and weight must be valid numbers greater than zero."
        else
          let normalizedDate := jsTrim formData.visit_date
          if existingDates.any (fun existingDate => jsTrim existingDate = normalizedDate) then
            SubmitOutcome.error ("A vitals entry already exists for " ++ formData.visit_date ++
              ". Please select a different date.")
          else
            SubmitOutcome.write
              { patient_id := pid
                visit_date := formData.visit_date
                height_cm := heightNum
                weight_kg := weightNum
                bmi := calculateBMI heightNum weightNum }
      | _, _ => SubmitOutcome.error "Height and weight must be valid numbers greater than zero."

/-- The body sent to `assessmentApi.createGeneralAssessment`. -/
structure GeneralPayload where
  patient_id : String
  visit_date : String
  general_health : String
  using_drugs : String
  comments : String
deriving DecidableEq, Repr

/-- Embeds `handleSubmit` of the general assessment form (GeneralAssessmentForm.tsx
lines 510-554): field presence checks, then the duplicate-date check, then
the create API call.  No future-date check appears in this handler. -/
def generalHandleSubmit (patientId : Option String) (existingDates : List String)
    (visit_date general_health using_drugs comments : String) :
    SubmitOutcome GeneralPayload :=
  match patientId with
  | none => SubmitOutcome.error "Patient data not found"
  | some pid =>
    if pid = "" then SubmitOutcome.error "Patient data not found"
    else if visit_date = "" then SubmitOutcome.error "Visit date is required"
    else if general_health = "" then SubmitOutcome.error "General health assessment is required"
    else if using_drugs = "" then
      SubmitOutcome.error "Please specify if the patient is using any drugs"
    else if existingDates.contains visit_date then
      SubmitOutcome.error ("A general assessment already exists for " ++ visit_date ++
        ". Please select a different date.")
    else
      SubmitOutcome.write
        { patient_id := pid
          visit_date := visit_date
          general_health := jsTrim general_health
          using_drugs := jsTrim using_drugs
          comments := jsTrim comments }

/-- Embeds `validateForm` of part_004 (lines 397-448): patient UUID, clinical bounds
on height (50-250 cm) and weight (2-300 kg), the future-date rejection, and
the duplicate-date check; `true` means the form may be submitted. -/
def part004ValidateForm (patientUUIDValid : Bool) (today : CalDate)
    (existingDates : List String) (visit_date height_cm weight_kg : String) : Bool :=
  let heightOk :=
    match jsParseFloat height_cm with
    | none => false
    | some height => decide (50 ≤ height ∧ height ≤ 250)
  let weightOk :=
    match jsParseFloat weight_kg with
    | none => false
    | some weight => decide (2 ≤ weight ∧ weight ≤ 300)
  patientUUIDValid && heightOk && weightOk &&
    !isFutureDate today visit_date && !existingDates.contains visit_date

/-- Embeds `handleSubmit` of part_004 (lines 481-509): `if (!validateForm()) return`
before `vitalsApi.createVitals` is called. -/
def part004HandleSubmit (patientUUID : String) (patientUUIDValid : Bool) (today : CalDate)
    (existingDates : List String) (visit_date height_cm weight_kg : String) :
    SubmitOutcome VitalsPayload :=
  if !part004ValidateForm patientUUIDValid today existingDates visit_date height_cm weight_kg then
    SubmitOutcome.error "validation failed"
  else
    match jsParseFloat height_cm, jsParseFloat weight_kg with
    | some h, some w =>
      SubmitOutcome.write
        { patient_id := patientUUID
          visit_date := visit_date
          height_cm := h
          weight_kg := w
          bmi := calculateBMI h w }
    | _, _ => SubmitOutcome.error "validation failed"

/-- Normalization of a fetched record's visit date
(`new Date(visit_date).toISOString().split('T')[0]`, falling back to the raw
string when the conversion throws): a parseable date maps to itself in
canonical form, anything else is kept verbatim. -/
def normalizeFetchedDate (s : String) : String :=
  match parseISODate s with
  | some dt =>
    (String.mk (Nat.toDigits 10 dt.y)) ++ "-" ++
      (if dt.m < 10 then "0" else "") ++ (String.mk (Nat.toDigits 10 dt.m)) ++ "-" ++
      (if dt.d < 10 then "0" else "") ++ (String.mk (Nat.toDigits 10 dt.d))
  | none => s

/-- Embeds `fetchExistingVitals` (VitalsForm.tsx lines 76-121): on a successful
fetch the payload is shape-sniffed and each record's `visit_date` is
normalized; on a transport error the catch branch runs
`setExistingDates([])`. -/
def fetchedVitalsDates (result : Except String Json) (visitDateOf : Json → String) :
    List String :=
  match result with
  | Except.error _ => []
  | Except.ok payload => (extractArrayBasic payload).map (fun v => normalizeFetchedDate (visitDateOf v))

/-- Embeds `fetchExistingAssessments` (GeneralAssessmentForm.tsx lines 472-505): the
same shape, with the same empty-list catch branch. -/
def fetchedAssessmentDates (result : Except String Json) (visitDateOf : Json → String) :
    List String :=
  match result with
  | Except.error _ => []
  | Except.ok payload =>
    ((extractArrayBasic payload).map (fun a => normalizeFetchedDate (visitDateOf a))).filter
      (fun date => date ≠ "")

/-- A vitals record as the listing sees it (only the fields the aggregation
reads). -/
structure VitalsRec where
  visit_date : Option String
  created_at : Option String
  bmi : ℚ
deriving DecidableEq, Repr

/-- An assessment record as the listing sees it. -/
structure AssessRec where
  visit_date : Option String
  created_at : Option String
deriving DecidableEq, Repr

/-- The variant tag of an assessment record. -/
inductive AssessKind
  | overweight
  | general
deriving DecidableEq, Repr

/-- Stable insertion step of a descending sort by `key`, the behaviour of
`Array.prototype.sort` with comparator `(a, b) => key(b) - key(a)`. -/
def insertDesc {α : Type} (key : α → Nat) (x : α) : List α → List α
  | [] => [x]
  | y :: ys => if key y ≤ key x then x :: y :: ys else y :: insertDesc key x ys

/-- Stable descending sort by `key`; embeds the source's
`.sort((a, b) => getDateValue(b...) - getDateValue(a...))`. -/
def sortDesc {α : Type} (key : α → Nat) : List α → List α
  | [] => []
  | x :: xs => insertDesc key x (sortDesc key xs)

/-- Embeds `visit_date || created_at` date key of a vitals record. -/
def vitalKey (v : VitalsRec) : Nat :=
  getDateValue (v.visit_date <|> v.created_at)

/-- Embeds `visit_date || created_at` date key of an assessment record. -/
def assessKey (a : AssessRec) : Nat :=
  getDateValue (a.visit_date <|> a.created_at)

/-- Embeds `fetchPatientVitals` of the second listing implementation (PatientListing.tsx
lines 1262-1300), applied to the already-fetched record list: sort descending
by date and return the most recent record, `null` when there are none. -/
def fetchPatientVitals (vitalsArray : List VitalsRec) : Option VitalsRec :=
  match sortDesc vitalKey vitalsArray with
  | [] => none
  | v :: _ => some v

/-- The tagging step of `fetchPatientAssessments` (PatientListing.tsx lines
1334-1366): `{...assessment, type, visit_date: visit_date || created_at}`. -/
def tagAssessment (k : AssessKind) (a : AssessRec) : AssessKind × AssessRec :=
  (k, { a with visit_date := a.visit_date <|> a.created_at })

/-- Date key of a tagged assessment. -/
def taggedKey (t : AssessKind × AssessRec) : Nat :=
  getDateValue (t.2.visit_date <|> t.2.created_at)

/-- Embeds `fetchPatientAssessments` of the second listing implementation
(PatientListing.tsx lines 1312-1381), applied to the two already-fetched
record lists: tag both kinds, combine (overweight entries first), sort
descending by date, return the most recent. -/
def fetchPatientAssessments (overweightArr generalArr : List AssessRec) :
    Option (AssessKind × AssessRec) :=
  let assessments :=
    overweightArr.map (tagAssessment AssessKind.overweight) ++
      generalArr.map (tagAssessment AssessKind.general)
  match sortDesc taggedKey assessments with
  | [] => none
  | t :: _ => some t

/-- A patient as delivered by the patients list endpoint (only the fields the
aggregation reads). -/
structure PatientRec where
  id : String
  first_name : String
  last_name : String
  created_at : Option String
deriving DecidableEq, Repr

/-- The backend, seen as per-patient record lists (each sub-resource fetch,
already normalized). -/
structure Backend where
  vitals : String → List VitalsRec
  overweight : String → List AssessRec
  general : String → List AssessRec

/-- The derived patient summary row of the listing. -/
structure Summary where
  id : String
  first_name : String
  last_name : String
  created_at : Option String
  last_bmi : Option ℚ
  last_bmi_status : Option String
  last_vitals_date : Option String
  last_assessment_date : Option String
  last_assessment_type : Option String
deriving DecidableEq, Repr

/-- Embeds `parseBmiValue` (PatientListing.tsx lines 1240-1254) on an
already-numeric BMI: `parseFloat(num.toFixed(1))`. -/
def parseBmiValue (num : ℚ) : ℚ :=
  (roundHalfAway (10 * num) : ℚ) / 10

/-- The per-patient enrichment of `fetchPatients` in the first listing
implementation (PatientListing.tsx lines 134-190): latest vitals by date
sort; then the overweight assessments, and only when there are none the
general assessments — the `else` branch at line 166. -/
def enrichPatientV1 (env : Backend) (p : PatientRec) : Summary :=
  let base : Summary :=
    { id := p.id, first_name := p.first_name, last_name := p.last_name
      created_at := p.created_at, last_bmi := none, last_bmi_status := none
      last_vitals_date := none, last_assessment_date := none, last_assessment_type := none }
  let afterVitals :=
    match sortDesc vitalKey (env.vitals p.id) with
    | [] => base
    | latestVital :: _ =>
      { base with
          last_bmi := some latestVital.bmi
          last_bmi_status := some (getBmiStatus latestVital.bmi)
          last_vitals_date := latestVital.visit_date <|> latestVital.created_at }
  match sortDesc assessKey (env.overweight p.id) with
  | latestAssessment :: _ =>
    { afterVitals with
        last_assessment_date := latestAssessment.visit_date <|> latestAssessment.created_at
        last_assessment_type := some "Overweight" }
  | [] =>
    match sortDesc assessKey (env.general p.id) with
    | latestAssessment :: _ =>
      { afterVitals with
          last_assessment_date := latestAssessment.visit_date <|> latestAssessment.created_at
          last_assessment_type := some "General" }
    | [] => afterVitals

/-- Embeds `processPatientData` of the second listing implementation
(PatientListing.tsx lines 1391-1450): latest vitals and latest assessment
fetched in parallel, BMI re-parsed, status re-derived, assessment kind
reported from the more recent record's tag. -/
def processPatientData (env : Backend) (p : PatientRec) : Summary :=
  let latestVitals := fetchPatientVitals (env.vitals p.id)
  let latestAssessment := fetchPatientAssessments (env.overweight p.id) (env.general p.id)
  let lastBmi := latestVitals.map (fun v => parseBmiValue v.bmi)
  { id := p.id
    first_name := p.first_name
    last_name := p.last_name
    created_at := p.created_at
    last_bmi := lastBmi
    last_bmi_status :=
      some (match lastBmi with
            | some b => getBmiStatus b
            | none => "No Data")
    last_vitals_date := latestVitals.bind (fun v => v.visit_date <|> v.created_at)
    last_assessment_date := latestAssessment.bind (fun t => t.2.visit_date <|> t.2.created_at)
    last_assessment_type :=
      latestAssessment.map (fun t =>
        match t.1 with
        | AssessKind.overweight => "Overweight Assessment"
        | AssessKind.general => "General Assessment") }

/-- The result slots of `Promise.all`: each completion (in schedule order)
stores its patient's summary at that patient's index, regardless of when it
completes. -/
def fanInSlots {α β : Type} (f : α → β) (patients : List α) (sched : List Nat) :
    List (Option β) :=
  sched.foldl (fun slots i => slots.set i ((patients.get? i).map f))
    (List.replicate patients.length none)

/-- Embeds `Promise.all` over the per-patient fan-out: the fulfilled slots read out
in index order once every completion has landed. -/
def promiseAll {α β : Type} (f : α → β) (patients : List α) (sched : List Nat) : List β :=
  (fanInSlots f patients sched).reduceOption

/-- Embeds `fetchPatients` of the first listing implementation (PatientListing.tsx
lines 105-205): `Promise.all(basicPatients.map(...))` with the enrichment
above; the result is stored as-is. -/
def fetchPatientsV1 (env : Backend) (patients : List PatientRec) (sched : List Nat) :
    List Summary :=
  promiseAll (enrichPatientV1 env) patients sched

/-- Name filter of the second `fetchPatients` (PatientListing.tsx lines
1510-1512): `patient.first_name || patient.last_name`. -/
def hasName (s : Summary) : Bool :=
  s.first_name ≠ "" || s.last_name ≠ ""

/-- Creation-date key of a summary (PatientListing.tsx lines 1514-1518). -/
def createdKey (s : Summary) : Nat :=
  getDateValue s.created_at

/-- Embeds `fetchPatients` of the second listing implementation (PatientListing.tsx
lines 1466-1543): fan-out with `Promise.all`, then
`filter(first_name || last_name)` and `sort` by `created_at` descending. -/
def fetchPatientsV2 (env : Backend) (patients : List PatientRec) (sched : List Nat) :
    List Summary :=
  sortDesc createdKey ((promiseAll (processPatientData env) patients sched).filter hasName)

theorem mem_insertDesc {α : Type} (key : α → Nat) (x : α) (l : List α) (a : α) :
    a ∈ insertDesc key x l ↔ a = x ∨ a ∈ l := by
  induction l with
  | nil => simp [insertDesc]
  | cons y ys ih =>
    simp only [insertDesc]
    split
    · simp [or_comm, or_assoc, or_left_comm]
    · simp only [List.mem_cons, ih]
      tauto

theorem insertDesc_ne_nil {α : Type} (key : α → Nat) (x : α) (l : List α) :
    insertDesc key x l ≠ [] := by
  cases l with
  | nil => simp [insertDesc]
  | cons y ys =>
    simp only [insertDesc]
    split <;> simp

theorem sortDesc_eq_nil_iff {α : Type} (key : α → Nat) (l : List α) :
    sortDesc key l = [] ↔ l = [] := by
  cases l with
  | nil => simp [sortDesc]
  | cons x xs =>
    simp only [sortDesc]
    exact ⟨fun h => absurd h (insertDesc_ne_nil key x _), fun h => by cases h⟩

theorem mem_sortDesc {α : Type} (key : α → Nat) (l : List α) (a : α) :
    a ∈ sortDesc key l ↔ a ∈ l := by
  induction l with
  | nil => simp [sortDesc]
  | cons x xs ih => simp [sortDesc, mem_insertDesc, ih]

theorem sortDesc_head_max {α : Type} (key : α → Nat) :
    ∀ (l : List α) (h : α) (t : List α), sortDesc key l = h :: t → ∀ a ∈ l, key a ≤ key h := by
  intro l
  induction l with
  | nil => intro h t hst; simp [sortDesc] at hst
  | cons x xs ih =>
    intro h t hst a ha
    simp only [sortDesc] at hst
    rcases hxs : sortDesc key xs with _ | ⟨y, ys⟩
    · have hxsnil : xs = [] := (sortDesc_eq_nil_iff key xs).mp hxs
      subst hxsnil
      simp only [sortDesc, insertDesc] at hst
      cases hst
      simp only [List.mem_singleton] at ha
      simp [ha]
    · rw [hxs] at hst
      simp only [insertDesc] at hst
      have hy : ∀ b ∈ xs, key b ≤ key y := ih y ys hxs
      by_cases hcmp : key y ≤ key x
      · rw [if_pos hcmp] at hst
        cases hst
        rcases List.mem_cons.mp ha with rfl | hmem
        · exact le_refl _
        · exact le_trans (hy a hmem) hcmp
      · rw [if_neg hcmp] at hst
        cases hst
        rcases List.mem_cons.mp ha with rfl | hmem
        · exact le_of_not_le hcmp
        · exact hy a hmem

theorem taggedKey_tagAssessment (k : AssessKind) (a : AssessRec) :
    taggedKey (tagAssessment k a) = assessKey a := by
  cases hv : a.visit_date <;> cases hc : a.created_at <;>
    simp [taggedKey, tagAssessment, assessKey, hv, hc, Option.orElse]

theorem abs_roundHalfAway_sub (x : ℚ) : |(roundHalfAway x : ℚ) - x| ≤ 1/2 := by
  rw [abs_le]
  unfold roundHalfAway
  split
  · constructor
    · have := Int.lt_floor_add_one (x + 1/2)
      linarith
    · have := Int.floor_le (x + 1/2)
      linarith
  · constructor
    · have := Int.le_ceil (x - 1/2)
      linarith
    · have := Int.ceil_lt_add_one (x - 1/2)
      linarith

theorem foldl_set_get {β : Type} (g : Nat → Option β) (sched : List Nat) :
    ∀ (init : List (Option β)) (j : Nat),
      (sched.foldl (fun s i => s.set i (g i)) init)[j]? =
        if j ∈ sched ∧ j < init.length then some (g j) else init[j]? := by
  induction sched with
  | nil => intro init j; simp
  | cons i is ih =>
    intro init j
    simp only [List.foldl_cons]
    rw [ih (init.set i (g i)) j, List.length_set]
    by_cases hmem : j ∈ is ∧ j < init.length
    · rw [if_pos hmem, if_pos ⟨List.mem_cons_of_mem i hmem.1, hmem.2⟩]
    · rw [if_neg hmem, List.getElem?_set]
      by_cases hij : i = j
      · subst hij
        by_cases hlen : i < init.length
        · simp [hlen, List.mem_cons]
        · rw [if_pos rfl, if_neg hlen, if_neg (fun hc => hlen hc.2), List.getElem?_eq_none]
          omega
      · rw [if_neg hij]
        have : ¬(j ∈ i :: is ∧ j < init.length) := by
          intro hc
          rcases List.mem_cons.mp hc.1 with rfl | hmem2
          · exact hij rfl
          · exact hmem ⟨hmem2, hc.2⟩
        rw [if_neg this]

theorem fanInSlots_complete {α β : Type} (f : α → β) (ps : List α) (sched : List Nat)
    (hs : ∀ j, j < ps.length → j ∈ sched) :
    fanInSlots f ps sched = ps.map (fun p => some (f p)) := by
  apply List.ext_getElem?
  intro j
  unfold fanInSlots
  rw [foldl_set_get (fun i => (ps.get? i).map f) sched (List.replicate ps.length none) j]
  rw [List.length_replicate, List.getElem?_map]
  by_cases hj : j < ps.length
  · rw [if_pos ⟨hs j hj, hj⟩, List.get?_eq_getElem?, List.getElem?_eq_getElem hj]
    simp
  · rw [if_neg (fun hc => hj hc.2), List.getElem?_replicate, if_neg hj,
      List.getElem?_eq_none (by omega)]
    simp

theorem reduceOption_map_some {β : Type} (l : List β) :
    (l.map (fun b => some b)).reduceOption = l := by
  induction l with
  | nil => rfl
  | cons x xs ih => simp [List.reduceOption_cons_of_some, ih]

theorem promiseAll_eq_map {α β : Type} (f : α → β) (ps : List α) (sched : List Nat)
    (hs : ∀ j, j < ps.length → j ∈ sched) :
    promiseAll f ps sched = ps.map f := by
  unfold promiseAll
  rw [fanInSlots_complete f ps sched hs]
  have : ps.map (fun p => some (f p)) = (ps.map f).map (fun b => some b) := by
    simp [List.map_map, Function.comp]
  rw [this, reduceOption_map_some]

/-- Claim C4: for positive inputs `calculateBMI` returns
`weightKg / (heightCm/100)^2` rounded to one decimal place (within `1/20`
of the raw value, and an exact multiple of `1/10`), and on the three
reference inputs it yields `24.3` (Normal), `27.3` (Overweight) and `17.0`
(Underweight). -/
theorem bmi_engine_correct :
    (∀ h w : ℚ, 0 < h → 0 < w →
      |calculateBMI h w - w / ((h / 100) * (h / 100))| ≤ 1 / 20 ∧
      ∃ z : ℤ, calculateBMI h w = (z : ℚ) / 10) ∧
    calculateBMI 170 70.2 = 24.3 ∧ vitalsFormStatus 24.3 = "Normal" ∧
    calculateBMI 160 70 = 27.3 ∧ vitalsFormStatus 27.3 = "Overweight" ∧
    calculateBMI 180 55 = 17 ∧ vitalsFormStatus 17 = "Underweight" := by
  refine ⟨fun h w hh hw => ⟨?_, ⟨roundHalfAway (10 * (w / ((h / 100) * (h / 100)))), rfl⟩⟩,
    ?_, ?_, ?_, ?_, ?_, ?_⟩
  · have hb := abs_roundHalfAway_sub (10 * (w / ((h / 100) * (h / 100))))
    have key : calculateBMI h w - w / ((h / 100) * (h / 100)) =
        ((roundHalfAway (10 * (w / ((h / 100) * (h / 100)))) : ℚ) -
          10 * (w / ((h / 100) * (h / 100)))) / 10 := by
      unfold calculateBMI
      ring
    rw [key, abs_div]
    rw [show |(10 : ℚ)| = 10 by norm_num]
    linarith
  · norm_num [calculateBMI, roundHalfAway]
  · norm_num [vitalsFormStatus]
  · norm_num [calculateBMI, roundHalfAway]
  · norm_num [vitalsFormStatus]
  · norm_num [calculateBMI, roundHalfAway]
  · norm_num [vitalsFormStatus]

/-- Witness for C4: the rounding bound instantiated at the first reference
input. -/
theorem bmi_engine_correct_witness :
    |calculateBMI 170 70.2 - 70.2 / ((170 / 100) * (170 / 100))| ≤ 1 / 20 ∧
    ∃ z : ℤ, calculateBMI 170 70.2 = (z : ℚ) / 10 :=
  bmi_engine_correct.1 170 70.2 (by norm_num) (by norm_num)

/-- Claim C5 (amended): the label-producing classification functions (vitals
entry, both listing views, detail view, general-form eligibility) are
extensionally equal and implement exactly the fixed thresholds; the guarded
listing variant agrees whenever the BMI is nonzero.  (As stated, the claim
fails: see the counterexample — the eligibility gates and the routing label
use the strict cutoff `bmi > 25`.) -/
theorem bmi_classifiers_agree (bmi : ℚ) :
    vitalsFormStatus bmi = getBmiStatus bmi ∧
    getBmiStatusText bmi = getBmiStatus bmi ∧
    detailsGetBmiStatus bmi = getBmiStatus bmi ∧
    part004GetBmiStatus bmi = getBmiStatus bmi ∧
    (bmi ≠ 0 → listingGetBmiStatusOpt (some bmi) = getBmiStatus bmi) ∧
    (getBmiStatus bmi = "Underweight" ∨ getBmiStatus bmi = "Normal" ∨
      getBmiStatus bmi = "Overweight") ∧
    (bmi < 18.5 ↔ getBmiStatus bmi = "Underweight") ∧
    ((18.5 ≤ bmi ∧ bmi < 25) ↔ getBmiStatus bmi = "Normal") ∧
    (25 ≤ bmi ↔ getBmiStatus bmi = "Overweight") := by
  unfold vitalsFormStatus getBmiStatus getBmiStatusText detailsGetBmiStatus
    part004GetBmiStatus listingGetBmiStatusOpt
  refine ⟨rfl, rfl, rfl, rfl, fun hne => by simp [hne], ?_, ?_, ?_, ?_⟩ <;>
    split_ifs with h1 h2 <;>
    simp_all <;> first | linarith | (constructor <;> intro <;> linarith)

/-- Witness for C5: the guarded listing classifier instantiated at BMI 27. -/
theorem bmi_classifiers_agree_witness :
    listingGetBmiStatusOpt (some 27) = getBmiStatus 27 :=
  (bmi_classifiers_agree 27).2.2.2.2.1 (by norm_num)

/-- Counterexample for C5: at BMI exactly 25 the fixed thresholds classify
Overweight, yet the overweight-form eligibility gate (`bmi <= 25` denied)
treats 25 as not overweight, and the routing label of part_004 line 519 calls
it `Normal/Underweight` — classification logic with a different threshold. -/
theorem bmi_classifier_mismatch_at_25 :
    getBmiStatus 25 = "Overweight" ∧
    overweightFormAccess 25 = FormAccess.denied ∧
    routeBmiStatus 25 = "Normal/Underweight" ∧
    routeBmiStatus 25 ≠ getBmiStatus 25 := by
  refine ⟨?_, ?_, ?_, ?_⟩ <;>
    norm_num [getBmiStatus, overweightFormAccess, routeBmiStatus] <;> decide

/-- Claim C1 (amended): for BMI strictly above 25 the vitals flow routes to
and only the overweight form accepts; for BMI strictly below 25 it routes to
and only the general form accepts; at BMI exactly 25 — an Overweight-category
value — it routes to the general form and both forms reject with the
access-denied state. -/
theorem workflow_gating_strict (bmi : ℚ) :
    (25 < bmi → nextRoute bmi = Route.overweight ∧
      overweightFormAccess bmi = FormAccess.granted ∧
      generalFormAccess bmi = FormAccess.denied) ∧
    (bmi < 25 → nextRoute bmi = Route.general ∧
      generalFormAccess bmi = FormAccess.granted ∧
      overweightFormAccess bmi = FormAccess.denied) ∧
    (bmi = 25 → getBmiStatus bmi = "Overweight" ∧ nextRoute bmi = Route.general ∧
      generalFormAccess bmi = FormAccess.denied ∧
      overweightFormAccess bmi = FormAccess.denied) := by
  refine ⟨fun hgt => ⟨?_, ?_, ?_⟩, fun hlt => ⟨?_, ?_, ?_⟩, fun heq => ⟨?_, ?_, ?_, ?_⟩⟩ <;>
    subst_vars <;>
    simp only [nextRoute, overweightFormAccess, generalFormAccess, getBmiStatusText,
      getBmiStatus] <;>
    split_ifs <;> first | rfl | linarith | simp_all <;> linarith

/-- Witness for C1: the strict gating instantiated at BMI 27 (Overweight)
and BMI 24.3 (Normal). -/
theorem workflow_gating_strict_witness :
    (nextRoute 27 = Route.overweight ∧ overweightFormAccess 27 = FormAccess.granted ∧
      generalFormAccess 27 = FormAccess.denied) ∧
    (nextRoute 24.3 = Route.general ∧ generalFormAccess 24.3 = FormAccess.granted ∧
      overweightFormAccess 24.3 = FormAccess.denied) :=
  ⟨(workflow_gating_strict 27).1 (by norm_num),
    (workflow_gating_strict 24.3).2.1 (by norm_num)⟩

/-- Counterexample for C1: BMI 25 has category Overweight, yet the vitals
flow routes it to the general form, which denies it — and the overweight form
denies it too, so the claimed "Overweight routes to and is accepted by the
overweight form" fails at this input. -/
theorem workflow_gating_fails_at_25 :
    getBmiStatus 25 = "Overweight" ∧ nextRoute 25 = Route.general ∧
    overweightFormAccess 25 = FormAccess.denied ∧
    generalFormAccess 25 = FormAccess.denied := by
  refine ⟨?_, ?_, ?_, ?_⟩ <;>
    norm_num [getBmiStatus, nextRoute, overweightFormAccess, generalFormAccess,
      getBmiStatusText]

/-- Claim C9: a BMI of exactly 25.0 arises from valid vitals (160 cm, 64 kg);
the vitals form then routes to the general assessment form (`bmi <= 25`), the
general form classifies 25.0 as Overweight and shows access denied, and the
overweight form denies `bmi <= 25` as well — neither assessment form accepts
this patient. -/
theorem bmi_25_dead_end :
    calculateBMI 160 64 = 25 ∧
    getBmiStatus 25 = "Overweight" ∧
    nextRoute 25 = Route.general ∧
    generalFormAccess 25 = FormAccess.denied ∧
    overweightFormAccess 25 = FormAccess.denied := by
  refine ⟨?_, ?_, ?_, ?_, ?_⟩ <;>
    norm_num [calculateBMI, roundHalfAway, getBmiStatus, nextRoute, generalFormAccess,
      getBmiStatusText, overweightFormAccess]

theorem vitalsSubmit_guard_cases (pid : String) (existingDates : List String)
    (fd : VitalsFormData) (h w : ℚ) (hpid : pid ≠ "") (hvd : fd.visit_date ≠ "")
    (hhc : fd.height_cm ≠ "") (hwc : fd.weight_kg ≠ "")
    (hph : jsParseFloat fd.height_cm = some h) (hpw : jsParseFloat fd.weight_kg = some w)
    (hh : 0 < h) (hw : 0 < w) :
    ((∃ e ∈ existingDates, jsTrim e = jsTrim fd.visit_date) →
      vitalsHandleSubmit (some pid) existingDates fd =
        SubmitOutcome.error ("A vitals entry already exists for " ++ fd.visit_date ++
          ". Please select a different date.")) ∧
    ((∀ e ∈ existingDates, jsTrim e ≠ jsTrim fd.visit_date) →
      vitalsHandleSubmit (some pid) existingDates fd =
        SubmitOutcome.write
          { patient_id := pid
            visit_date := fd.visit_date
            height_cm := h
            weight_kg := w
            bmi := calculateBMI h w }) := by
  have hfields : ¬(fd.visit_date = "" ∨ fd.height_cm = "" ∨ fd.weight_kg = "") := by
    simp [hvd, hhc, hwc]
  have hpos : ¬(h ≤ 0 ∨ w ≤ 0) := by
    rintro (hc | hc) <;> linarith
  constructor
  · intro hdup
    have hany : (existingDates.any fun e => jsTrim e = jsTrim fd.visit_date) = true := by
      rcases hdup with ⟨e, he, hee⟩
      exact List.any_eq_true.mpr ⟨e, he, by simp [hee]⟩
    unfold vitalsHandleSubmit
    simp only [hph, hpw]
    simp [hpid, hfields, hpos, hany]
  · intro hnone
    have hany : (existingDates.any fun e => jsTrim e = jsTrim fd.visit_date) = false := by
      rw [List.any_eq_false]
      intro e he
      simp [hnone e he]
    unfold vitalsHandleSubmit
    simp only [hph, hpw]
    simp [hpid, hfields, hpos, hany]

theorem generalSubmit_guard_cases (pid : String) (existingDates : List String)
    (vd gh ud c : String) (hpid : pid ≠ "") (hvd : vd ≠ "") (hgh : gh ≠ "")
    (hud : ud ≠ "") :
    (vd ∈ existingDates →
      generalHandleSubmit (some pid) existingDates vd gh ud c =
        SubmitOutcome.error ("A general assessment already exists for " ++ vd ++
          ". Please select a different date.")) ∧
    (vd ∉ existingDates →
      generalHandleSubmit (some pid) existingDates vd gh ud c =
        SubmitOutcome.write
          { patient_id := pid
            visit_date := vd
            general_health := jsTrim gh
            using_drugs := jsTrim ud
            comments := jsTrim c }) := by
  constructor
  · intro hmem
    unfold generalHandleSubmit
    simp [hpid, hvd, hgh, hud, hmem]
  · intro hmem
    unfold generalHandleSubmit
    simp [hpid, hvd, hgh, hud, hmem]

/-- Claim C6: with the other validations passing, a vitals submission whose
(trimmed) visit date matches an existing date is rejected with the duplicate
validation error before any write, and one with no match reaches the create
call; likewise for the general assessment form's `includes` check.  In
particular (witness): with existing dates `{"2024-01-10"}`, submitting
`"2024-01-10"` is rejected and `"2024-01-11"` is accepted. -/
theorem duplicate_date_guard (pid : String) (existingDates : List String)
    (fd : VitalsFormData) (h w : ℚ) (hpid : pid ≠ "") (hvd : fd.visit_date ≠ "")
    (hhc : fd.height_cm ≠ "") (hwc : fd.weight_kg ≠ "")
    (hph : jsParseFloat fd.height_cm = some h) (hpw : jsParseFloat fd.weight_kg = some w)
    (hh : 0 < h) (hw : 0 < w) :
    ((∃ e ∈ existingDates, jsTrim e = jsTrim fd.visit_date) →
      vitalsHandleSubmit (some pid) existingDates fd =
        SubmitOutcome.error ("A vitals entry already exists for " ++ fd.visit_date ++
          ". Please select a different date.")) ∧
    ((∀ e ∈ existingDates, jsTrim e ≠ jsTrim fd.visit_date) →
      vitalsHandleSubmit (some pid) existingDates fd =
        SubmitOutcome.write
          { patient_id := pid
            visit_date := fd.visit_date
            height_cm := h
            weight_kg := w
            bmi := calculateBMI h w }) ∧
    (∀ (gdates : List String) (gh ud c : String), gh ≠ "" → ud ≠ "" →
      (fd.visit_date ∈ gdates →
        generalHandleSubmit (some pid) gdates fd.visit_date gh ud c =
          SubmitOutcome.error ("A general assessment already exists for " ++ fd.visit_date ++
            ". Please select a different date.")) ∧
      (fd.visit_date ∉ gdates →
        generalHandleSubmit (some pid) gdates fd.visit_date gh ud c =
          SubmitOutcome.write
            { patient_id := pid
              visit_date := fd.visit_date
              general_health := jsTrim gh
              using_drugs := jsTrim ud
              comments := jsTrim c })) := by
  have hv := vitalsSubmit_guard_cases pid existingDates fd h w hpid hvd hhc hwc hph hpw hh hw
  exact ⟨hv.1, hv.2, fun gdates gh ud c hgh hud =>
    generalSubmit_guard_cases pid gdates fd.visit_date gh ud c hpid hvd hgh hud⟩

/-- Witness for C6: the guard at the spec's concrete dates. -/
theorem duplicate_date_guard_witness :
    vitalsHandleSubmit (some "p1") ["2024-01-10"] ⟨"2024-01-10", "170", "70"⟩ =
      SubmitOutcome.error ("A vitals entry already exists for " ++ "2024-01-10" ++
        ". Please select a different date.") ∧
    vitalsHandleSubmit (some "p1") ["2024-01-10"] ⟨"2024-01-11", "170", "70"⟩ =
      SubmitOutcome.write
        { patient_id := "p1"
          visit_date := "2024-01-11"
          height_cm := 170
          weight_kg := 70
          bmi := calculateBMI 170 70 } :=
  ⟨(duplicate_date_guard "p1" ["2024-01-10"] ⟨"2024-01-10", "170", "70"⟩ 170 70
      (by decide) (by decide) (by decide) (by decide)
      (by simp +decide [jsParseFloat, takeDigits, digitsVal])
      (by simp +decide [jsParseFloat, takeDigits, digitsVal])
      (by norm_num) (by norm_num)).1 ⟨"2024-01-10", by decide, by decide⟩,
    (duplicate_date_guard "p1" ["2024-01-10"] ⟨"2024-01-11", "170", "70"⟩ 170 70
      (by decide) (by decide) (by decide) (by decide)
      (by simp +decide [jsParseFloat, takeDigits, digitsVal])
      (by simp +decide [jsParseFloat, takeDigits, digitsVal])
      (by norm_num) (by norm_num)).2.1 (by decide)⟩

/-- Claim C10: when the fetch of existing records fails, the catch branches
set the existing-date list to empty, so the duplicate check passes for every
candidate date and the (otherwise valid) submission proceeds to the create
call — the read failure silently disables duplicate protection. -/
theorem read_failure_disables_duplicate_guard (e : String) (visitDateOf : Json → String)
    (pid : String) (fd : VitalsFormData) (h w : ℚ) (gh ud c : String)
    (hpid : pid ≠ "") (hvd : fd.visit_date ≠ "") (hhc : fd.height_cm ≠ "")
    (hwc : fd.weight_kg ≠ "") (hph : jsParseFloat fd.height_cm = some h)
    (hpw : jsParseFloat fd.weight_kg = some w) (hh : 0 < h) (hw : 0 < w)
    (hgh : gh ≠ "") (hud : ud ≠ "") :
    fetchedVitalsDates (Except.error e) visitDateOf = [] ∧
    fetchedAssessmentDates (Except.error e) visitDateOf = [] ∧
    vitalsHandleSubmit (some pid) (fetchedVitalsDates (Except.error e) visitDateOf) fd =
      SubmitOutcome.write
        { patient_id := pid
          visit_date := fd.visit_date
          height_cm := h
          weight_kg := w
          bmi := calculateBMI h w } ∧
    generalHandleSubmit (some pid) (fetchedAssessmentDates (Except.error e) visitDateOf)
      fd.visit_date gh ud c =
      SubmitOutcome.write
        { patient_id := pid
          visit_date := fd.visit_date
          general_health := jsTrim gh
          using_drugs := jsTrim ud
          comments := jsTrim c } := by
  refine ⟨rfl, rfl, ?_, ?_⟩
  · exact (vitalsSubmit_guard_cases pid [] fd h w hpid hvd hhc hwc hph hpw hh hw).2
      (by simp)
  · exact (generalSubmit_guard_cases pid [] fd.visit_date gh ud c hpid hvd hgh hud).2
      (by simp)

/-- Witness for C10: a transport error plus a concrete submission: the
duplicate guard sees no dates and the write goes through. -/
theorem read_failure_disables_duplicate_guard_witness :
    vitalsHandleSubmit (some "p1")
      (fetchedVitalsDates (Except.error "Network Error") (fun _ => "x"))
      ⟨"2024-01-10", "170", "70"⟩ =
      SubmitOutcome.write
        { patient_id := "p1"
          visit_date := "2024-01-10"
          height_cm := 170
          weight_kg := 70
          bmi := calculateBMI 170 70 } :=
  (read_failure_disables_duplicate_guard "Network Error" (fun _ => "x") "p1"
    ⟨"2024-01-10", "170", "70"⟩ 170 70 "Good" "No" ""
    (by decide) (by decide) (by decide) (by decide)
    (by simp +decide [jsParseFloat, takeDigits, digitsVal])
    (by simp +decide [jsParseFloat, takeDigits, digitsVal])
    (by norm_num) (by norm_num) (by decide) (by decide)).2.2.1

/-- Claim C7 (amended): only the part_004 vitals submission rejects a future
visit date before any network call (its `validateForm` runs `isFutureDate`
regardless of conflicts); the assessment submit handlers perform no
future-date check in code — they only constrain the date picker with a `max`
attribute — so a future-dated submission reaching them is written (see the
counterexample). -/
theorem future_date_rejected_in_part004 (uuid : String) (valid : Bool) (today : CalDate)
    (existingDates : List String) (vd hcm wkg : String)
    (hfut : isFutureDate today vd = true) :
    part004ValidateForm valid today existingDates vd hcm wkg = false ∧
    part004HandleSubmit uuid valid today existingDates vd hcm wkg =
      SubmitOutcome.error "validation failed" := by
  have hv : part004ValidateForm valid today existingDates vd hcm wkg = false := by
    unfold part004ValidateForm
    simp [hfut]
  refine ⟨hv, ?_⟩
  unfold part004HandleSubmit
  rw [hv]
  simp

/-- Witness for C7: the part_004 validation at a concrete future date. -/
theorem future_date_rejected_in_part004_witness :
    part004HandleSubmit "u1" true ⟨2024, 1, 10⟩ [] "2024-02-01" "170" "70" =
      SubmitOutcome.error "validation failed" :=
  (future_date_rejected_in_part004 "u1" true ⟨2024, 1, 10⟩ [] "2024-02-01" "170" "70"
    (by decide)).2

/-- Counterexample for C7: a visit date one day in the future sails through
the general assessment form's submit handler and reaches the create call —
no future-date validation error is raised there. -/
theorem future_date_not_checked_on_assessment :
    isFutureDate ⟨2024, 1, 10⟩ "2024-01-11" = true ∧
    generalHandleSubmit (some "p1") [] "2024-01-11" "Good" "No" "" =
      SubmitOutcome.write
        { patient_id := "p1"
          visit_date := "2024-01-11"
          general_health := "Good"
          using_drugs := "No"
          comments := "" } := by
  exact ⟨by decide, by decide⟩

/-- Claim C8: the Response Normalizer is a total function (hence never
throws) that tries, in order with first match winning: the payload itself
when a list; `payload.results` when a list; `payload.data` when a list; the
first list-valued entry at depth 1; the first list-valued entry at depth 2;
otherwise the empty list — and yields the empty list on every non-object,
non-list payload. -/
theorem response_normalizer_algorithm :
    (∀ l, extractArrayFromResponse (Json.arr l) = l) ∧
    (∀ fs l, lookupArr fs "results" = some l →
      extractArrayFromResponse (Json.obj fs) = l) ∧
    (∀ fs l, lookupArr fs "results" = none → lookupArr fs "data" = some l →
      extractArrayFromResponse (Json.obj fs) = l) ∧
    (∀ fs l, lookupArr fs "results" = none → lookupArr fs "data" = none →
      firstArrayValue fs = some l → extractArrayFromResponse (Json.obj fs) = l) ∧
    (∀ fs l, lookupArr fs "results" = none → lookupArr fs "data" = none →
      firstArrayValue fs = none → firstNestedArrayValue fs = some l →
      extractArrayFromResponse (Json.obj fs) = l) ∧
    (∀ fs, lookupArr fs "results" = none → lookupArr fs "data" = none →
      firstArrayValue fs = none → firstNestedArrayValue fs = none →
      extractArrayFromResponse (Json.obj fs) = []) ∧
    extractArrayFromResponse Json.null = [] ∧
    (∀ b, extractArrayFromResponse (Json.bool b) = []) ∧
    (∀ q, extractArrayFromResponse (Json.num q) = []) ∧
    (∀ s, extractArrayFromResponse (Json.str s) = []) := by
  refine ⟨fun l => rfl, ?_, ?_, ?_, ?_, ?_, rfl, fun b => rfl, fun q => rfl, fun s => rfl⟩
  · intro fs l h1
    simp only [extractArrayFromResponse, h1]
  · intro fs l h1 h2
    simp only [extractArrayFromResponse, h1, h2]
  · intro fs l h1 h2 h3
    simp only [extractArrayFromResponse, h1, h2, h3]
  · intro fs l h1 h2 h3 h4
    simp only [extractArrayFromResponse, h1, h2, h3, h4]
  · intro fs l h1 h2 h3
    simp only [extractArrayFromResponse, l, h1, h2, h3]

/-- Witness for C8: the depth-1 scan on a payload with no recognized key:
`{count: 2, items: [1]}` yields `[1]`. -/
theorem response_normalizer_algorithm_witness :
    extractArrayFromResponse
      (Json.obj [("count", Json.num 2), ("items", Json.arr [Json.num 1])]) =
      [Json.num 1] :=
  response_normalizer_algorithm.2.2.2.1
    [("count", Json.num 2), ("items", Json.arr [Json.num 1])] [Json.num 1]
    rfl rfl rfl

theorem fetchAssessments_head_max (ow gen : List AssessRec) (t : AssessKind × AssessRec)
    (rest : List (AssessKind × AssessRec))
    (hsort : sortDesc taggedKey
      (ow.map (tagAssessment AssessKind.overweight) ++
        gen.map (tagAssessment AssessKind.general)) = t :: rest) :
    fetchPatientAssessments ow gen = some t ∧
    t ∈ ow.map (tagAssessment AssessKind.overweight) ++
      gen.map (tagAssessment AssessKind.general) ∧
    (∀ o ∈ ow, assessKey o ≤ taggedKey t) ∧
    (∀ g ∈ gen, assessKey g ≤ taggedKey t) := by
  have hmax := sortDesc_head_max taggedKey _ t rest hsort
  refine ⟨?_, ?_, ?_, ?_⟩
  · simp only [fetchPatientAssessments]
    rw [hsort]
  · rw [← mem_sortDesc taggedKey, hsort]
    exact List.mem_cons_self t rest
  · intro o ho
    have := hmax _ (List.mem_append_left _
      (List.mem_map_of_mem (tagAssessment AssessKind.overweight) ho))
    rwa [taggedKey_tagAssessment] at this
  · intro g hg
    have := hmax _ (List.mem_append_right _
      (List.mem_map_of_mem (tagAssessment AssessKind.general) hg))
    rwa [taggedKey_tagAssessment] at this

/-- Claim C2 (amended): in the `fetchPatientAssessments`-based aggregation the
selected record always carries the maximal `visit_date || created_at` key,
and whenever one kind has a record strictly more recent than every record of
the other kind, `latestAssessmentType` reports that kind.  (As stated the
claim fails: the other listing implementation's `fetchPatients` reports
Overweight whenever any overweight record exists — see the counterexample.) -/
theorem latest_assessment_selection (ow gen : List AssessRec) :
    (∀ g ∈ gen, (∀ o ∈ ow, assessKey o < assessKey g) →
      ∃ a, fetchPatientAssessments ow gen = some (AssessKind.general, a)) ∧
    (∀ o ∈ ow, (∀ g ∈ gen, assessKey g < assessKey o) →
      ∃ a, fetchPatientAssessments ow gen = some (AssessKind.overweight, a)) ∧
    (∀ t, fetchPatientAssessments ow gen = some t →
      (∀ o ∈ ow, assessKey o ≤ taggedKey t) ∧ (∀ g ∈ gen, assessKey g ≤ taggedKey t)) ∧
    (∀ (env : Backend) (p : PatientRec),
      (processPatientData env p).last_assessment_type =
        (fetchPatientAssessments (env.overweight p.id) (env.general p.id)).map
          (fun t => match t.1 with
            | AssessKind.overweight => "Overweight Assessment"
            | AssessKind.general => "General Assessment")) := by
  refine ⟨?_, ?_, ?_, fun env p => rfl⟩
  · intro g hg hbeats
    rcases hsort : sortDesc taggedKey
        (ow.map (tagAssessment AssessKind.overweight) ++
          gen.map (tagAssessment AssessKind.general)) with _ | ⟨t, rest⟩
    · have := (sortDesc_eq_nil_iff _ _).mp hsort
      simp only [List.append_eq_nil, List.map_eq_nil_iff] at this
      rw [this.2] at hg
      cases hg
    · obtain ⟨hfetch, htmem, hmaxow, _⟩ := fetchAssessments_head_max ow gen t rest hsort
      have hglet : assessKey g ≤ taggedKey t := by
        have := sortDesc_head_max taggedKey _ t rest hsort _
          (List.mem_append_right _ (List.mem_map_of_mem _ hg))
        rwa [taggedKey_tagAssessment] at this
      rcases List.mem_append.mp htmem with hmem | hmem
      · rcases List.mem_map.mp hmem with ⟨o, ho, hto⟩
        have hkt : taggedKey t = assessKey o := by rw [← hto, taggedKey_tagAssessment]
        have := hbeats o ho
        omega
      · rcases List.mem_map.mp hmem with ⟨g2, _, htg⟩
        have ht1 : t.1 = AssessKind.general := by rw [← htg]; rfl
        exact ⟨t.2, by rw [hfetch, ← ht1]⟩
  · intro o ho hbeats
    rcases hsort : sortDesc taggedKey
        (ow.map (tagAssessment AssessKind.overweight) ++
          gen.map (tagAssessment AssessKind.general)) with _ | ⟨t, rest⟩
    · have := (sortDesc_eq_nil_iff _ _).mp hsort
      simp only [List.append_eq_nil, List.map_eq_nil_iff] at this
      rw [this.1] at ho
      cases ho
    · obtain ⟨hfetch, htmem, _, hmaxgen⟩ := fetchAssessments_head_max ow gen t rest hsort
      have holet : assessKey o ≤ taggedKey t := by
        have := sortDesc_head_max taggedKey _ t rest hsort _
          (List.mem_append_left _ (List.mem_map_of_mem _ ho))
        rwa [taggedKey_tagAssessment] at this
      rcases List.mem_append.mp htmem with hmem | hmem
      · rcases List.mem_map.mp hmem with ⟨o2, _, hto⟩
        have ht1 : t.1 = AssessKind.overweight := by rw [← hto]; rfl
        exact ⟨t.2, by rw [hfetch, ← ht1]⟩
      · rcases List.mem_map.mp hmem with ⟨g2, hg2, htg⟩
        have hkt : taggedKey t = assessKey g2 := by rw [← htg, taggedKey_tagAssessment]
        have := hbeats g2 hg2
        omega
  · intro t ht
    rcases hsort : sortDesc taggedKey
        (ow.map (tagAssessment AssessKind.overweight) ++
          gen.map (tagAssessment AssessKind.general)) with _ | ⟨t2, rest⟩
    · simp only [fetchPatientAssessments] at ht
      rw [hsort] at ht
      cases ht
    · obtain ⟨hfetch, _, hmaxow, hmaxgen⟩ := fetchAssessments_head_max ow gen t2 rest hsort
      rw [hfetch] at ht
      injection ht with ht
      subst ht
      exact ⟨hmaxow, hmaxgen⟩

/-- Witness for C2: one overweight record (2024-01-05) and one newer general
record (2024-02-01): the merged selection reports the general kind. -/
theorem latest_assessment_selection_witness :
    ∃ a, fetchPatientAssessments [⟨some "2024-01-05", none⟩] [⟨some "2024-02-01", none⟩] =
      some (AssessKind.general, a) :=
  (latest_assessment_selection [⟨some "2024-01-05", none⟩]
      [⟨some "2024-02-01", none⟩]).1
    ⟨some "2024-02-01", none⟩ (by decide) (by decide)

/-- Backend for the C2 counterexample: one overweight assessment dated
2024-01-01 and one strictly newer general assessment dated 2024-02-01. -/
def v1CexEnv : Backend where
  vitals := fun _ => []
  overweight := fun _ => [⟨some "2024-01-01", none⟩]
  general := fun _ => [⟨some "2024-02-01", none⟩]

/-- Counterexample for C2: the first listing implementation reports
`Overweight` although the general assessment is strictly more recent — its
`fetchPatients` consults general assessments only when no overweight record
exists at all. -/
theorem overweight_reported_despite_newer_general :
    (enrichPatientV1 v1CexEnv ⟨"a", "Alice", "Smith", none⟩).last_assessment_type =
      some "Overweight" ∧
    assessKey ⟨some "2024-01-01", none⟩ < assessKey ⟨some "2024-02-01", none⟩ := by
  exact ⟨by decide, by decide⟩

/-- Claim C3 (amended): the `Promise.all` fan-in delivers, for every
completion schedule covering all patients, exactly the per-patient summaries
in input order — same length, `i`-th element the summary of the `i`-th
patient; the first `fetchPatients` stores that list as-is, while the second
then drops summaries with no name fields and re-sorts by creation date
descending (so its final order is creation-date order, not input order — see
the counterexample). -/
theorem fan_in_preserves_order (env : Backend) (patients : List PatientRec)
    (sched : List Nat) (hs : ∀ j, j < patients.length → j ∈ sched) :
    fetchPatientsV1 env patients sched = patients.map (enrichPatientV1 env) ∧
    (fetchPatientsV1 env patients sched).length = patients.length ∧
    (∀ j : Nat, (fetchPatientsV1 env patients sched)[j]? =
      (patients[j]?).map (enrichPatientV1 env)) ∧
    fetchPatientsV2 env patients sched =
      sortDesc createdKey ((patients.map (processPatientData env)).filter hasName) := by
  have h1 : fetchPatientsV1 env patients sched = patients.map (enrichPatientV1 env) :=
    promiseAll_eq_map _ _ _ hs
  refine ⟨h1, by rw [h1]; simp, fun j => by rw [h1]; simp, ?_⟩
  unfold fetchPatientsV2
  rw [promiseAll_eq_map _ _ _ hs]

/-- Backend for the C3 witness and counterexample: every sub-resource fetch
returns no records. -/
def fanEnv : Backend where
  vitals := fun _ => []
  overweight := fun _ => []
  general := fun _ => []

/-- Witness for C3: two patients whose fetches complete in reverse order
(schedule `[1, 0]`) still produce summaries in input order. -/
theorem fan_in_preserves_order_witness :
    fetchPatientsV1 fanEnv
      [⟨"a", "Alice", "Smith", some "2024-01-01"⟩, ⟨"b", "Bob", "Jones", some "2024-06-01"⟩]
      [1, 0] =
      [enrichPatientV1 fanEnv ⟨"a", "Alice", "Smith", some "2024-01-01"⟩,
        enrichPatientV1 fanEnv ⟨"b", "Bob", "Jones", some "2024-06-01"⟩] :=
  (fan_in_preserves_order fanEnv
    [⟨"a", "Alice", "Smith", some "2024-01-01"⟩, ⟨"b", "Bob", "Jones", some "2024-06-01"⟩]
    [1, 0] (by
      intro j hj
      simp only [List.length_cons, List.length_nil] at hj
      rcases Nat.lt_succ_iff_lt_or_eq.mp hj with hj1 | rfl
      · rcases Nat.lt_one_iff.mp hj1 with rfl
        decide
      · decide)).1

/-- Counterexample for C3: in the second listing implementation, with patient
A created 2024-01-01 before patient B created 2024-06-01 and an in-order
completion schedule, the first output element is not A's summary — the final
sort by creation date reverses the input order. -/
theorem fan_in_order_fails_v2 :
    (fetchPatientsV2 fanEnv
      [⟨"a", "Alice", "Smith", some "2024-01-01"⟩, ⟨"b", "Bob", "Jones", some "2024-06-01"⟩]
      [0, 1])[0]? ≠
      some (processPatientData fanEnv ⟨"a", "Alice", "Smith", some "2024-01-01"⟩) := by
  decide
